import Mathlib

/-!
Verification of the in-browser TypeScript playground of the
`core-typescript` documentation site.

The playground lives in a Vue single-file component (the file with the
Monaco editor, `executeCode`, `checkTypeErrors`, `isRelevantError`,
`formatArgs`, `resetCode`, `clearAll`); a second, simpler runner lives in
`docs/components/MonacoEditor.vue` (`safeTranspileTS`,
`transpileAndRunTS`, `customConsole`).

This file gives a shallow embedding of both components.  The embedded
TypeScript compiler (`ts.createProgram` / `ts.getPreEmitDiagnostics` /
`ts.transpileModule`), the execution of user code (`new Function(js)()`),
the wall clock and the browser's `localStorage` are opaque external
collaborators; they are modelled as parameters (`Host`, `MEHost`).  The
observable behaviour of a piece of executed user code is modelled as the
ordered list of console calls it makes plus an optional thrown error.
Everything else (state updates, filtering, formatting, the substitute /
restore discipline on the global console) is translated statement by
statement from the source.
-/

namespace Playground

/-! ### JS string helpers (String.prototype.startsWith / includes) -/

/-- Substring occurrence test on character lists (JS `String.prototype.includes`). -/
def hasSub (sub : List Char) : List Char → Bool
  | [] => sub.isEmpty
  | c :: t => if sub.isPrefixOf (c :: t) then true else hasSub sub t

/-- JS `s.includes(sub)`. -/
def strContains (s sub : String) : Bool := hasSub sub.data s.data

/-- JS `s.startsWith(pre)`. -/
def strStarts (s pre : String) : Bool := pre.data.isPrefixOf s.data

/-! ### JS runtime values and errors -/

/-- A JS runtime error (`Error` object); only its `message` is observed by the
playground (`error.message` in the catch blocks). -/
structure JsError where
  message : String
deriving DecidableEq

/-- A JS runtime value, as far as the log formatters observe it: its `typeof`
tag, its `String(...)` conversion, and — for composite (object-typed) values —
the result of `JSON.stringify(arg, null, 2)`, where `none` models a stringify
that throws (e.g. a circular structure). -/
inductive JsValue where
  | str (s : String)
  | num (n : Int)
  | bool (b : Bool)
  | null
  | undefined
  | obj (stringified : Option String) (toStringValue : String)
deriving DecidableEq

/-- `typeof arg === "object"`.  Note `typeof null === "object"` in JS. -/
def typeofIsObject : JsValue → Bool
  | .obj _ _ => true
  | .null => true
  | _ => false

/-- JS `String(arg)`. -/
def jsString : JsValue → String
  | .str s => s
  | .num n => toString n
  | .bool b => cond b "true" "false"
  | .null => "null"
  | .undefined => "undefined"
  | .obj _ t => t

/-- `JSON.stringify(arg, null, 2)`; `none` models a thrown exception
(circular structure).  The formatters below only apply it to object-typed
values (they test `typeof` first); `JSON.stringify(null)` is `"null"`. -/
def jsonStringify : JsValue → Option String
  | .obj stringified _ => stringified
  | .null => some "null"
  | v => some (jsString v)

/-! ### `formatArgs` (playground component)

```js
function formatArgs(args) {
  return args.map((arg) => {
    if (typeof arg === "object" && arg !== null) {
      try { return JSON.stringify(arg, null, 2); }
      catch (e) { return String(arg); }
    }
    return String(arg);
  }).join(" ");
}
```
-/

/-- JS `Array.prototype.join(" ")`. -/
def joinSpace : List String → String
  | [] => ""
  | [x] => x
  | x :: xs => x ++ " " ++ joinSpace xs

/-- The body of the `map` callback in `formatArgs`. -/
def renderArg (arg : JsValue) : String :=
  if typeofIsObject arg && !(arg == JsValue.null) then
    match jsonStringify arg with
    | some s => s
    | none => jsString arg
  else jsString arg

/-- `formatArgs` from the playground component. -/
def formatArgs (args : List JsValue) : String := joinSpace (args.map renderArg)

/-! ### Diagnostics -/

/-- One diagnostic as produced by the underlying checker
(`ts.getPreEmitDiagnostics` / `emitResult.diagnostics`).
`messageText` is the message string (for a `DiagnosticMessageChain`, its head
`.messageText`, which is what both `isRelevantError` and the mapping in
`checkTypeErrors` extract); `pos = some (line, character, start)` models
`diagnostic.file` being present and `diagnostic.start !== undefined`, with
`line`/`character` the 0-based values of `getLineAndCharacterOfPosition`;
`length` is `diagnostic.length` (`none` = `undefined`). -/
structure RawDiagnostic where
  messageText : String
  pos : Option (Nat × Nat × Nat)
  length : Option Nat
  code : Nat
deriving DecidableEq

/-- One entry of the exposed `typeErrors` list. -/
structure Diagnostic where
  line : Nat
  character : Nat
  messageText : String
  start : Nat
  length : Nat
  code : Nat
deriving DecidableEq

/-- `isRelevantError` from the playground component:

```js
const isRelevantError = (diagnostic) => {
  if (!diagnostic || !diagnostic.messageText) return false;
  const messageText = ... // string or chain head
  if (messageText.startsWith("Cannot find global type ")) return false;
  if (messageText.includes("Could not resolve") || messageText.includes("not found")) return false;
  if (messageText.includes("lib.d.ts") || messageText.includes("lib-undefined") ||
      messageText.includes("node_modules") ||
      messageText.includes("Cannot find name 'console'") ||
      messageText.includes("Cannot find name 'document'") ||
      messageText.includes("Cannot find name 'window'")) return false;
  return true;
};
```

(The diagnostics array never contains `null`; `!diagnostic.messageText` is the
JS falsiness test, i.e. the empty string.) -/
def isRelevantError (d : RawDiagnostic) : Bool :=
  if d.messageText = "" then false
  else if strStarts d.messageText "Cannot find global type " then false
  else if strContains d.messageText "Could not resolve" || strContains d.messageText "not found" then false
  else if strContains d.messageText "lib.d.ts" || strContains d.messageText "lib-undefined" ||
      strContains d.messageText "node_modules" ||
      strContains d.messageText "Cannot find name 'console'" ||
      strContains d.messageText "Cannot find name 'document'" ||
      strContains d.messageText "Cannot find name 'window'" then false
  else true

/-- The `map` in `checkTypeErrors` turning a raw diagnostic into an exposed
one: positioned diagnostics keep their (1-based) position, positionless ones
are reported at line 1, character 1. -/
def toDiagnostic (d : RawDiagnostic) : Diagnostic :=
  match d.pos with
  | some (line, character, start) =>
    { line := line + 1, character := character + 1, messageText := d.messageText,
      start := start, length := d.length.getD 0, code := d.code }
  | none =>
    { line := 1, character := 1, messageText := d.messageText,
      start := 0, length := 0, code := d.code }

/-! ### Console model

`executeCode` substitutes `console.log` / `console.error` / `console.warn`
with intercepting closures that append a log entry and forward to the saved
previous binding.  We record, per method, how many intercepting closures are
stacked on top of the real console binding (`0` = the original browser
binding).  A call at depth `d` appends `d` log entries (each interceptor adds
one and forwards inward).  `console.info` is never substituted. -/

structure ConsoleGlobals where
  log : Nat
  error : Nat
  warn : Nat
deriving DecidableEq

/-- Effect on the global console of the three assignments
`console.log = (...) => { addLog(...); originalLog(...) }` etc. -/
def interceptConsole (c : ConsoleGlobals) : ConsoleGlobals :=
  { log := c.log + 1, error := c.error + 1, warn := c.warn + 1 }

inductive ConsoleKind where
  | log
  | error
  | warn
  | info
deriving DecidableEq

def kindName : ConsoleKind → String
  | .log => "log"
  | .error => "error"
  | .warn => "warn"
  | .info => "info"

/-- How many intercepting layers a call of the given kind passes through.
`console.info` is left untouched by `executeCode`, so it always hits the real
console directly. -/
def interceptDepth (c : ConsoleGlobals) : ConsoleKind → Nat
  | .log => c.log
  | .error => c.error
  | .warn => c.warn
  | .info => 0

/-- One console call made by executing user code. -/
structure ConsoleCall where
  kind : ConsoleKind
  args : List JsValue
deriving DecidableEq

/-- Observable behaviour of `new Function(jsCode)()`: the ordered console
calls the code makes, then either normal return (`thrown = none`) or a thrown
error. -/
structure ExecBehavior where
  calls : List ConsoleCall
  thrown : Option JsError
deriving DecidableEq

/-! ### Playground state and host -/

/-- One entry of the `logs` list (`{ type, message, timestamp }`). -/
structure LogEntry where
  type : String
  message : String
  timestamp : String
deriving DecidableEq

/-- The reactive state of the playground component. -/
structure State where
  tsCode : String
  logs : List LogEntry
  typeErrors : List Diagnostic
  runErrors : List Diagnostic
  console : ConsoleGlobals
  storage : List (String × String)
deriving DecidableEq

/-- The opaque external collaborators:
`check` is `ts.createProgram` + `program.emit` + `ts.getPreEmitDiagnostics`
over the fixed compiler host (it may throw);
`transpile` is `ts.transpileModule(code, ...).outputText` (it may throw);
`exec` is the behaviour of `new Function(jsCode)()`;
`setItem` is `localStorage.setItem` (it may throw, e.g. quota exceeded);
`now` is `new Date().toLocaleTimeString()`. -/
structure Host where
  check : String → Except JsError (List RawDiagnostic)
  transpile : String → Except JsError String
  exec : String → ExecBehavior
  setItem : String → String → List (String × String) → Except JsError (List (String × String))
  now : String

/-- The behaviour of a well-behaved `localStorage.setItem`. -/
def storeWrite (k v : String) (st : List (String × String)) : List (String × String) :=
  (k, v) :: st.filter (fun p => !(p.1 == k))

/-! ### Playground operations (translated from the component's script) -/

/-- `addLog(type, message)`: pushes `{ type, message, timestamp }`. -/
def addLog (host : Host) (type message : String) (s : State) : State :=
  { s with logs := s.logs ++ [{ type := type, message := message, timestamp := host.now }] }

/-- `clearLogs()`. -/
def clearLogs (s : State) : State := { s with logs := [] }

/-- `clearErrors()` (the decoration update has no state in the model). -/
def clearErrors (s : State) : State := { s with runErrors := [], typeErrors := [] }

/-- `clearAll()`. -/
def clearAll (s : State) : State := clearErrors (clearLogs s)

/-- `checkTypeErrors()`: runs the checker over the current editor contents and
replaces `typeErrors` with the filtered, mapped diagnostic list.  The source
contains no `try`/`catch`, so a throw inside the analysis pass propagates to
the caller. -/
def checkTypeErrors (host : Host) (s : State) : Except JsError State :=
  match host.check s.tsCode with
  | .error e => .error e
  | .ok allDiagnostics =>
    .ok { s with typeErrors := (allDiagnostics.filter isRelevantError).map toDiagnostic }

/-- The `onDidChangeModelContent` handler, run after the editor contents have
already changed:

```js
monacoEditor.onDidChangeModelContent(() => {
  localStorage.setItem("tsPlaygroundCode", monacoEditor.getValue());
  checkTypeErrors();
});
```

Neither statement is guarded, so a throwing `setItem` propagates and skips the
recheck. -/
def contentChanged (host : Host) (s : State) : Except JsError State :=
  match host.setItem "tsPlaygroundCode" s.tsCode s.storage with
  | .error e => .error e
  | .ok st => checkTypeErrors host { s with storage := st }

/-- An edit: the model contents change, then the change handler fires. -/
def setText (host : Host) (text : String) (s : State) : Except JsError State :=
  contentChanged host { s with tsCode := text }

/-- Dispatch of one console call made by executing user code: each
intercepting layer appends one formatted log entry (and forwards inward, the
innermost layer reaching the real console, which is outside the model). -/
def dispatchCall (host : Host) (s : State) (c : ConsoleCall) : State :=
  let entry : LogEntry :=
    { type := kindName c.kind, message := formatArgs c.args, timestamp := host.now }
  { s with logs := s.logs ++ List.replicate (interceptDepth s.console c.kind) entry }

/-- Runs the console calls of an execution in order. -/
def runCalls (host : Host) (calls : List ConsoleCall) (s : State) : State :=
  calls.foldl (dispatchCall host) s

/-- The log entries produced by a list of console calls under fixed console
bindings. -/
def entriesFor (host : Host) (c : ConsoleGlobals) (calls : List ConsoleCall) : List LogEntry :=
  calls.flatMap (fun call =>
    let entry : LogEntry :=
      { type := kindName call.kind, message := formatArgs call.args, timestamp := host.now }
    List.replicate (interceptDepth c call.kind) entry)

/-- The `try` block of `executeCode`, returning the state reached so far and
the thrown error, if any:

```js
try {
  clearLogs();
  const code = monacoEditor.getValue();
  checkTypeErrors();
  runErrors.value = [...typeErrors.value];
  const jsCode = ts.transpileModule(code, {...}).outputText;
  const originalLog = console.log; ... // save
  console.log = (...args) => { addLog("log", formatArgs(args)); originalLog(...args); };
  ... // error, warn likewise
  new Function(jsCode)();
  console.log = originalLog; console.error = originalError; console.warn = originalWarn;
}
```

Note the restoring assignments sit inside the `try`, after the execution. -/
def executeCodeAux (host : Host) (s0 : State) : State × Option JsError :=
  let s := clearLogs s0
  let code := s.tsCode
  match checkTypeErrors host s with
  | .error e => (s, some e)
  | .ok s1 =>
    let s2 := { s1 with runErrors := s1.typeErrors }
    match host.transpile code with
    | .error e => (s2, some e)
    | .ok jsCode =>
      let saved := s2.console
      let s3 := { s2 with console := interceptConsole saved }
      let behavior := host.exec jsCode
      let s4 := runCalls host behavior.calls s3
      match behavior.thrown with
      | some e => (s4, some e)
      | none => ({ s4 with console := saved }, none)

/-- `executeCode()`: the `try` block above wrapped in
`catch (error) { addLog("error", error.message); }`. -/
def executeCode (host : Host) (s0 : State) : State :=
  match executeCodeAux host s0 with
  | (s, none) => s
  | (s, some e) => addLog host "error" e.message s

/-- The bundled default program. -/
def defaultCode : String :=
  "// Core-TypeScript Playground\nfunction greet(name: string) \x7b\n  console.log(`Hello, $\x7bname\x7d!`);\n\x7d\n\ngreet('Core-Typescript');\n"

/-- `resetCode()`:

```js
monacoEditor.setValue(defaultCode);        // fires the change handler
localStorage.setItem("tsPlaygroundCode", defaultCode);
clearAll();
setTimeout(() => { checkTypeErrors(); }, 100);
```

We model the state after the deferred recheck has completed. -/
def resetCode (host : Host) (s : State) : Except JsError State :=
  match setText host defaultCode s with
  | .error e => .error e
  | .ok s1 =>
    match host.setItem "tsPlaygroundCode" defaultCode s1.storage with
    | .error e => .error e
    | .ok st => checkTypeErrors host (clearAll { s1 with storage := st })

/-! ### The `MonacoEditor.vue` runner

A second, independent editor component with its own run pipeline
(`safeTranspileTS` / `transpileAndRunTS` / `customConsole`). -/

/-- One diagnostic of `ts.transpileModule(..., reportDiagnostics: true)`:
whether its `category` is `ts.DiagnosticCategory.Error`, the flattened
message (`ts.flattenDiagnosticMessageText`), and the 0-based
`(line, character)` when `diagnostic.file` and `diagnostic.start` are
present. -/
structure MEDiagnostic where
  isErrorCategory : Bool
  message : String
  pos : Option (Nat × Nat)
deriving DecidableEq

/-- The result of `ts.transpileModule`. -/
structure METranspileOut where
  outputText : String
  diagnostics : List MEDiagnostic
deriving DecidableEq

/-- One entry of the `errors` list of `MonacoEditor.vue`. -/
structure MEError where
  lineNumber : Nat
  column : Nat
  message : String
deriving DecidableEq

/-- The reactive state of `MonacoEditor.vue`: the `output` text, the `errors`
list, the active tab, and whether `window.console` currently points at
`customConsole`. -/
structure MEState where
  output : String
  errors : List MEError
  activeTab : String
  consoleIsCustom : Bool
deriving DecidableEq

/-- Opaque collaborators of `MonacoEditor.vue`: the raw `ts.transpileModule`
call (which may throw) and the behaviour of `new Function(functionBody)()`. -/
structure MEHost where
  transpileModule : String → Except JsError METranspileOut
  exec : String → ExecBehavior

/-- `safeTranspileTS`: wraps `ts.transpileModule` in `try`/`catch`, degrading
a throw to empty output plus one synthetic error diagnostic. -/
def safeTranspileTS (h : MEHost) (code : String) : METranspileOut :=
  match h.transpileModule code with
  | .ok r => r
  | .error err =>
    { outputText := "",
      diagnostics := [{ isErrorCategory := true,
                        message := "Transpilation error: " ++ err.message,
                        pos := none }] }

/-- The `forEach` body of `transpileAndRunTS` mapping an error-category
diagnostic to an `errors` entry ((1,1) when it carries no position). -/
def toMEError (d : MEDiagnostic) : MEError :=
  match d.pos with
  | some (line, character) =>
    { lineNumber := line + 1, column := character + 1, message := d.message }
  | none => { lineNumber := 1, column := 1, message := d.message }

/-- The argument formatter shared by the `customConsole` methods:
`typeof arg === 'object' ? JSON.stringify(arg, null, 2) : String(arg)`.
There is no `try`/`catch` here, so a throwing stringify (circular structure)
propagates out of the console call. -/
def renderMEArg (arg : JsValue) : Except JsError String :=
  if typeofIsObject arg then
    match jsonStringify arg with
    | some s => .ok s
    | none => .error { message := "Converting circular structure to JSON" }
  else .ok (jsString arg)

/-- `args.map(...).join(' ')` over the fallible per-argument formatter. -/
def meJoinArgs (args : List JsValue) : Except JsError String :=
  match args with
  | [] => .ok ""
  | a :: rest =>
    match renderMEArg a, meJoinArgs rest with
    | .ok s, .ok "" => .ok s
    | .ok s, .ok tail => .ok (s ++ " " ++ tail)
    | .error e, _ => .error e
    | _, .error e => .error e

/-- The text each `customConsole` method puts before the joined arguments. -/
def meTag : ConsoleKind → String
  | .log => ""
  | .error => "🛑 "
  | .warn => "⚠️ "
  | .info => "ℹ️ "

/-- One `customConsole` call: appends the tagged, joined arguments plus a
newline to `output`. -/
def meApplyCall (st : MEState) (c : ConsoleCall) : Except JsError MEState :=
  match meJoinArgs c.args with
  | .error e => .error e
  | .ok rendered =>
    .ok { st with output := st.output ++ meTag c.kind ++ rendered ++ "\n" }

/-- Runs the console calls of an execution in order, stopping at the first
one that throws and keeping the mutations made up to that point. -/
def meRunCalls : List ConsoleCall → MEState → MEState × Option JsError
  | [], st => (st, none)
  | c :: rest, st =>
    match meApplyCall st c with
    | .ok st1 => meRunCalls rest st1
    | .error e => (st, some e)

/-- `transpileAndRunTS(code)`:

```js
output.value = ''; errors.value = [];
const result = safeTranspileTS(code);
output.value = '// Starting execution...\n';
if (result.diagnostics?.length) {
  const hasErrors = result.diagnostics.some(d => d.category === Error);
  if (hasErrors) { /* push error-category diagnostics */ activeTab = 'errors'; return; }
}
if (!result.outputText?.trim()) { output.value += '// No code to execute.\n'; return; }
const originalConsole = window.console;
try { window.console = customConsole; new Function('"use strict";\n' + result.outputText)(); }
catch (error) { output.value += '\n// Execution error: ' + error.message + '\n'; }
finally { window.console = originalConsole; }
```
-/
def transpileAndRunTS (h : MEHost) (code : String) (st0 : MEState) : MEState :=
  let st : MEState := { st0 with output := "", errors := [] }
  let result := safeTranspileTS h code
  let st : MEState := { st with output := "// Starting execution...\n" }
  if result.diagnostics.any (fun d => d.isErrorCategory) then
    { st with errors := (result.diagnostics.filter (fun d => d.isErrorCategory)).map toMEError,
              activeTab := "errors" }
  else if (result.outputText.trim = "") then
    { st with output := st.output ++ "// No code to execute.\n" }
  else
    let behavior := h.exec ("\"use strict\";\n" ++ result.outputText)
    let stC : MEState := { st with consoleIsCustom := true }
    let run := meRunCalls behavior.calls stC
    let outcome : Option JsError :=
      match run.2 with
      | some e => some e
      | none => behavior.thrown
    let stE : MEState :=
      match outcome with
      | some e => { run.1 with output := run.1.output ++ "\n// Execution error: " ++ e.message ++ "\n" }
      | none => run.1
    { stE with consoleIsCustom := false }

/-! ### The spec's suppression predicate (for comparison with the code's)

Claim C5 states the suppression policy in the spec's words.  The following
predicate follows those words and is compared against `isRelevantError`. -/

/-- Modelled from the spec's filtering policy, for comparison only:
"diagnostics are suppressed if their message (a) begins with
'cannot find global type', or (b) mentions inability to resolve a module, or
(c) references the library declaration file itself or well-known ambient
globals (console/document/window) as unresolved." -/
def specSuppressedDiagnostic (msg : String) : Bool :=
  strStarts msg "Cannot find global type"
  || strContains msg "Could not resolve"
  || strContains msg "Cannot resolve module"
  || strContains msg "lib.d.ts"
  || strContains msg "Cannot find name 'console'"
  || strContains msg "Cannot find name 'document'"
  || strContains msg "Cannot find name 'window'"

/-! ### Helper lemmas -/

theorem dispatchCall_console (host : Host) (s : State) (c : ConsoleCall) :
    (dispatchCall host s c).console = s.console := rfl

theorem dispatchCall_logs (host : Host) (s : State) (c : ConsoleCall) :
    (dispatchCall host s c).logs =
      s.logs ++ List.replicate (interceptDepth s.console c.kind)
        { type := kindName c.kind, message := formatArgs c.args, timestamp := host.now } := rfl

theorem runCalls_console (host : Host) (calls : List ConsoleCall) (s : State) :
    (runCalls host calls s).console = s.console := by
  induction calls generalizing s with
  | nil => rfl
  | cons c rest ih => simpa [runCalls, List.foldl] using ih (dispatchCall host s c)

theorem runCalls_runErrors (host : Host) (calls : List ConsoleCall) (s : State) :
    (runCalls host calls s).runErrors = s.runErrors := by
  induction calls generalizing s with
  | nil => rfl
  | cons c rest ih => simpa [runCalls, List.foldl] using ih (dispatchCall host s c)

theorem runCalls_typeErrors (host : Host) (calls : List ConsoleCall) (s : State) :
    (runCalls host calls s).typeErrors = s.typeErrors := by
  induction calls generalizing s with
  | nil => rfl
  | cons c rest ih => simpa [runCalls, List.foldl] using ih (dispatchCall host s c)

theorem runCalls_tsCode (host : Host) (calls : List ConsoleCall) (s : State) :
    (runCalls host calls s).tsCode = s.tsCode := by
  induction calls generalizing s with
  | nil => rfl
  | cons c rest ih => simpa [runCalls, List.foldl] using ih (dispatchCall host s c)

theorem runCalls_storage (host : Host) (calls : List ConsoleCall) (s : State) :
    (runCalls host calls s).storage = s.storage := by
  induction calls generalizing s with
  | nil => rfl
  | cons c rest ih => simpa [runCalls, List.foldl] using ih (dispatchCall host s c)

theorem entriesFor_cons (host : Host) (c : ConsoleGlobals) (call : ConsoleCall)
    (rest : List ConsoleCall) :
    entriesFor host c (call :: rest) =
      List.replicate (interceptDepth c call.kind)
        { type := kindName call.kind, message := formatArgs call.args, timestamp := host.now }
      ++ entriesFor host c rest := rfl

theorem runCalls_logs (host : Host) (calls : List ConsoleCall) (s : State) :
    (runCalls host calls s).logs = s.logs ++ entriesFor host s.console calls := by
  induction calls generalizing s with
  | nil => simp [runCalls, entriesFor]
  | cons c rest ih =>
    have h := ih (dispatchCall host s c)
    simp only [runCalls, List.foldl] at h ⊢
    rw [h, dispatchCall_logs, dispatchCall_console, entriesFor_cons, List.append_assoc]

theorem storeWrite_idem (k v : String) (st : List (String × String)) :
    storeWrite k v (storeWrite k v st) = storeWrite k v st := by
  unfold storeWrite
  simp [List.filter_filter]

/-! ### Concrete hosts and states used as inputs below -/

/-- A host on which executing the transpiled code throws `Error("boom")`
before producing any output (the spec's `throw new Error("boom")` scenario). -/
def throwHost : Host :=
  { check := fun _ => .ok []
    transpile := fun _ => .ok "throw new Error(\"boom\");"
    exec := fun _ => { calls := [], thrown := some { message := "boom" } }
    setItem := fun k v st => .ok (storeWrite k v st)
    now := "12:00:00 PM" }

/-- A freshly mounted state: real console bindings, nothing logged. -/
def pristine : State :=
  { tsCode := "throw new Error(\"boom\");"
    logs := []
    typeErrors := []
    runErrors := []
    console := { log := 0, error := 0, warn := 0 }
    storage := [] }

/-- A host on which the static-analysis pass itself throws. -/
def crashingHost : Host :=
  { check := fun _ => .error { message := "Maximum call stack size exceeded" }
    transpile := fun _ => .ok ""
    exec := fun _ => { calls := [], thrown := none }
    setItem := fun k v st => .ok (storeWrite k v st)
    now := "12:00:00 PM" }

/-! ### C1 -/

/-- C1: the claim says the substituted `console.log`/`console.error`/
`console.warn` are restored on every exit path of a Run, including the one
where the executed user code throws.  The code restores them only after a
normal return of `new Function(jsCode)()`; the restoring assignments sit
inside the `try`, so on the throwing path the interceptors stay installed.
Concretely: running `throw new Error("boom")` from a pristine state leaves
all three bindings with one interceptor stacked on the real console (depth 1
instead of 0), while the error is logged as the claim expects. -/
theorem executeCode_throw_leaves_console_intercepted :
    (executeCode throwHost pristine).console = { log := 1, error := 1, warn := 1 } ∧
    pristine.console = { log := 0, error := 0, warn := 0 } ∧
    (executeCode throwHost pristine).logs =
      [{ type := "error", message := "boom", timestamp := "12:00:00 PM" }] := by
  refine ⟨rfl, rfl, rfl⟩

/-! ### C2 -/

/-- C2 counterexample: on a source text for which the analysis pass itself
throws, `checkTypeErrors` does not catch the failure and surface a synthetic
diagnostic at (1,1) — the exception propagates out of the checking
operation (there is no `try`/`catch` in `checkTypeErrors`). -/
theorem checkTypeErrors_propagates_cex :
    checkTypeErrors crashingHost pristine =
      Except.error { message := "Maximum call stack size exceeded" } := rfl

/-- C2 (amended): diagnostics that carry no position information are surfaced
at line 1, column 1; but an exception thrown inside the analysis pass is not
caught by `checkTypeErrors` and propagates to its caller.  (During a Run the
propagated exception is then caught at the Runner boundary and becomes an
error log entry.) -/
theorem checkTypeErrors_positionless_and_propagation :
    (∀ d : RawDiagnostic, d.pos = none →
      (toDiagnostic d).line = 1 ∧ (toDiagnostic d).character = 1) ∧
    (∀ (host : Host) (s : State) (e : JsError),
      host.check s.tsCode = Except.error e →
        checkTypeErrors host s = Except.error e) ∧
    (∀ (host : Host) (s : State) (e : JsError),
      host.check s.tsCode = Except.error e →
        (executeCode host s).logs =
          [{ type := "error", message := e.message, timestamp := host.now }]) := by
  refine ⟨?_, ?_, ?_⟩
  · intro d hpos
    simp [toDiagnostic, hpos]
  · intro host s e h
    simp [checkTypeErrors, h]
  · intro host s e h
    simp [executeCode, executeCodeAux, checkTypeErrors, clearLogs, h, addLog]

/-- C2 witness for `checkTypeErrors_positionless_and_propagation`. -/
theorem checkTypeErrors_positionless_and_propagation_witness :
    (toDiagnostic { messageText := "m", pos := none, length := none, code := 7 }).line = 1 ∧
    (toDiagnostic { messageText := "m", pos := none, length := none, code := 7 }).character = 1 ∧
    checkTypeErrors crashingHost pristine =
      Except.error { message := "Maximum call stack size exceeded" } ∧
    (executeCode crashingHost pristine).logs =
      [{ type := "error", message := "Maximum call stack size exceeded",
         timestamp := "12:00:00 PM" }] := by
  have h := checkTypeErrors_positionless_and_propagation
  exact ⟨(h.1 _ rfl).1, (h.1 _ rfl).2, h.2.1 crashingHost pristine _ rfl,
    h.2.2 crashingHost pristine _ rfl⟩

/-! ### C9 -/

/-- C9: the log-argument formatter is total: every value list is rendered to
a string; a composite value whose structured pretty-printing
(`JSON.stringify`) throws falls back to plain string conversion
(`String(arg)`); and `null` — although `typeof null === "object"` — is
rendered as `"null"` through the primitive path. -/
theorem formatArgs_total_fallback_null :
    (∀ (t : String) (args : List JsValue),
      formatArgs (JsValue.obj none t :: args) =
        if args = [] then t else t ++ " " ++ formatArgs args) ∧
    (∀ t : String, renderArg (JsValue.obj none t) = t) ∧
    formatArgs [JsValue.null] = "null" ∧
    typeofIsObject JsValue.null = true := by
  refine ⟨?_, fun t => rfl, rfl, rfl⟩
  intro t args
  cases args with
  | nil => rfl
  | cons a rest => rfl

/-! ### C5 -/

/-- A genuine user-code error whose message happens to contain the substring
`not found` inside a string-literal type: `let x: number = "not found";`. -/
def notFoundDiag : RawDiagnostic :=
  { messageText := "Type '\"not found\"' is not assignable to type 'number'."
    pos := some (0, 16, 16)
    length := some 11
    code := 2322 }

/-- C5 counterexample: the claim says a diagnostic is suppressed **iff** its
message (a) begins with "Cannot find global type", or (b) mentions inability
to resolve a module, or (c) references the virtual library file or the
ambient globals console/document/window.  `notFoundDiag` satisfies none of
(a)–(c) (`specSuppressedDiagnostic` is `false` on it), yet the code
suppresses it, because `isRelevantError` drops every message containing the
bare substring `"not found"`. -/
theorem suppression_not_iff_cex :
    isRelevantError notFoundDiag = false ∧
    specSuppressedDiagnostic notFoundDiag.messageText = false := by decide

/-- C5 (amended): a diagnostic is suppressed iff its message is empty, or
begins with `"Cannot find global type "`, or contains one of the substrings
`"Could not resolve"`, `"not found"`, `"lib.d.ts"`, `"lib-undefined"`,
`"node_modules"`, `"Cannot find name 'console'"`,
`"Cannot find name 'document'"`, `"Cannot find name 'window'"`; all other
diagnostics are kept, in the checker's original order (the exposed list is
the order-preserving `filter`-then-`map` of the checker's list). -/
theorem isRelevantError_characterization :
    (∀ d : RawDiagnostic,
      isRelevantError d = false ↔
        (d.messageText = "" ∨
         strStarts d.messageText "Cannot find global type " = true ∨
         strContains d.messageText "Could not resolve" = true ∨
         strContains d.messageText "not found" = true ∨
         strContains d.messageText "lib.d.ts" = true ∨
         strContains d.messageText "lib-undefined" = true ∨
         strContains d.messageText "node_modules" = true ∨
         strContains d.messageText "Cannot find name 'console'" = true ∨
         strContains d.messageText "Cannot find name 'document'" = true ∨
         strContains d.messageText "Cannot find name 'window'" = true)) ∧
    (∀ (host : Host) (s : State) (ds : List RawDiagnostic),
      host.check s.tsCode = Except.ok ds →
        checkTypeErrors host s =
          Except.ok { s with typeErrors := (ds.filter isRelevantError).map toDiagnostic }) := by
  constructor
  · intro d
    unfold isRelevantError
    split_ifs with h1 h2 h3 h4 <;> simp_all [Bool.or_eq_true] <;> tauto
  · intro host s ds h
    simp [checkTypeErrors, h]

/-- A host whose checker reports exactly `notFoundDiag`. -/
def filterDemoHost : Host :=
  { check := fun _ => .ok [notFoundDiag]
    transpile := fun _ => .ok ""
    exec := fun _ => { calls := [], thrown := none }
    setItem := fun k v st => .ok (storeWrite k v st)
    now := "12:00:00 PM" }

/-- C5 witness for `isRelevantError_characterization`. -/
theorem isRelevantError_characterization_witness :
    (isRelevantError notFoundDiag = false ↔
      (notFoundDiag.messageText = "" ∨
       strStarts notFoundDiag.messageText "Cannot find global type " = true ∨
       strContains notFoundDiag.messageText "Could not resolve" = true ∨
       strContains notFoundDiag.messageText "not found" = true ∨
       strContains notFoundDiag.messageText "lib.d.ts" = true ∨
       strContains notFoundDiag.messageText "lib-undefined" = true ∨
       strContains notFoundDiag.messageText "node_modules" = true ∨
       strContains notFoundDiag.messageText "Cannot find name 'console'" = true ∨
       strContains notFoundDiag.messageText "Cannot find name 'document'" = true ∨
       strContains notFoundDiag.messageText "Cannot find name 'window'" = true)) ∧
    checkTypeErrors filterDemoHost pristine =
      Except.ok { pristine with
        typeErrors := ([notFoundDiag].filter isRelevantError).map toDiagnostic } := by
  have h := isRelevantError_characterization
  exact ⟨h.1 notFoundDiag, h.2 filterDemoHost pristine [notFoundDiag] rfl⟩

/-! ### C7 -/

/-- A host whose `localStorage.setItem` throws (quota exceeded). -/
def quotaHost : Host :=
  { check := fun _ => .ok []
    transpile := fun _ => .ok ""
    exec := fun _ => { calls := [], thrown := none }
    setItem := fun _ _ _ => .error { message := "QuotaExceededError" }
    now := "12:00:00 PM" }

/-- C7 counterexample: the claim says a failing persistence write is silently
ignored, neither propagating nor blocking.  On an edit whose
`localStorage.setItem` throws, the change handler propagates the exception
(the write is unguarded) — and, since the recheck call follows the write in
the handler, that edit's recheck is skipped. -/
theorem persistence_failure_propagates_cex :
    setText quotaHost "let y = 2;" pristine =
      Except.error { message := "QuotaExceededError" } := rfl

/-- C7 (amended): every mutation is immediately written through to the host
key-value store under the fixed key `"tsPlaygroundCode"`; the write is
unguarded, so when it succeeds the recheck follows, but when it throws the
exception propagates out of the change handler and that edit's recheck is
skipped. -/
theorem contentChanged_writethrough :
    (∀ (host : Host) (s : State) (st : List (String × String)) (ds : List RawDiagnostic),
      host.setItem "tsPlaygroundCode" s.tsCode s.storage = Except.ok st →
      host.check s.tsCode = Except.ok ds →
        contentChanged host s =
          Except.ok { s with storage := st,
                             typeErrors := (ds.filter isRelevantError).map toDiagnostic }) ∧
    (∀ (host : Host) (s : State) (e : JsError),
      host.setItem "tsPlaygroundCode" s.tsCode s.storage = Except.error e →
        contentChanged host s = Except.error e) := by
  constructor
  · intro host s st ds hset hchk
    simp [contentChanged, hset, checkTypeErrors, hchk]
  · intro host s e hset
    simp [contentChanged, hset]

/-- C7 witness for `contentChanged_writethrough`. -/
theorem contentChanged_writethrough_witness :
    contentChanged filterDemoHost pristine =
      Except.ok { pristine with
        storage := storeWrite "tsPlaygroundCode" pristine.tsCode pristine.storage,
        typeErrors := (([notFoundDiag] : List RawDiagnostic).filter isRelevantError).map
          toDiagnostic } ∧
    contentChanged quotaHost pristine = Except.error { message := "QuotaExceededError" } := by
  have h := contentChanged_writethrough
  exact ⟨h.1 filterDemoHost pristine _ [notFoundDiag] rfl rfl,
    h.2 quotaHost pristine _ rfl⟩

/-! ### C3 -/

/-- C3: `executeCode` never lets an exception escape (it is a total function
into `State`; the whole body sits in `try`/`catch`), and an exception raised
by the executed transpiled code is converted into exactly one additional
error log entry carrying the failure's message, appended after the entries
the execution produced before throwing. -/
theorem executeCode_exception_single_error_entry
    (host : Host) (s : State) (ds : List RawDiagnostic) (js : String) (e : JsError)
    (hchk : host.check s.tsCode = Except.ok ds)
    (htp : host.transpile s.tsCode = Except.ok js)
    (hthrow : (host.exec js).thrown = some e) :
    (executeCode host s).logs =
      entriesFor host (interceptConsole s.console) (host.exec js).calls
        ++ [{ type := "error", message := e.message, timestamp := host.now }] := by
  unfold executeCode executeCodeAux
  simp [checkTypeErrors, clearLogs, hchk, htp, hthrow, addLog, runCalls_logs, runCalls_console]

/-- A host on which the executed code logs once and then throws
`Error("boom")`. -/
def boomHost : Host :=
  { check := fun _ => .ok []
    transpile := fun _ => .ok "console.log(\"hi\"); throw new Error(\"boom\");"
    exec := fun _ =>
      { calls := [{ kind := .log, args := [.str "hi"] }], thrown := some { message := "boom" } }
    setItem := fun k v st => .ok (storeWrite k v st)
    now := "12:00:00 PM" }

/-- C3 witness for `executeCode_exception_single_error_entry`. -/
theorem executeCode_exception_single_error_entry_witness :
    boomHost.check pristine.tsCode = Except.ok [] ∧
    boomHost.transpile pristine.tsCode =
      Except.ok "console.log(\"hi\"); throw new Error(\"boom\");" ∧
    (executeCode boomHost pristine).logs =
      [{ type := "log", message := "hi", timestamp := "12:00:00 PM" },
       { type := "error", message := "boom", timestamp := "12:00:00 PM" }] := by
  refine ⟨rfl, rfl, ?_⟩
  have h := executeCode_exception_single_error_entry boomHost pristine []
    "console.log(\"hi\"); throw new Error(\"boom\");" { message := "boom" } rfl rfl rfl
  exact h.trans rfl

/-! ### C6 -/

/-- C6: the `runErrors` snapshot of a Run is the result of a fresh check of
the text current at Run start (whatever `typeErrors` held before, and
whatever the transpilation and execution then do), and a subsequent edit —
which persists the new text and recomputes `typeErrors` — leaves that Run's
`runErrors` unchanged. -/
theorem runErrors_snapshot_isolation
    (host : Host) (s : State) (t : String) (ds dsEdit : List RawDiagnostic)
    (st : List (String × String))
    (hchk : host.check s.tsCode = Except.ok ds)
    (hset : host.setItem "tsPlaygroundCode" t (executeCode host s).storage = Except.ok st)
    (hchkEdit : host.check t = Except.ok dsEdit) :
    (executeCode host s).runErrors = (ds.filter isRelevantError).map toDiagnostic ∧
    ∃ s2, setText host t (executeCode host s) = Except.ok s2 ∧
      s2.runErrors = (executeCode host s).runErrors ∧
      s2.typeErrors = (dsEdit.filter isRelevantError).map toDiagnostic := by
  have hrun : (executeCode host s).runErrors = (ds.filter isRelevantError).map toDiagnostic := by
    unfold executeCode executeCodeAux
    cases ht : host.transpile s.tsCode with
    | error e => simp [checkTypeErrors, clearLogs, hchk, ht, addLog]
    | ok js =>
      cases hb : (host.exec js).thrown with
      | none =>
        simp [checkTypeErrors, clearLogs, hchk, ht, hb, addLog, runCalls_runErrors]
      | some e =>
        simp [checkTypeErrors, clearLogs, hchk, ht, hb, addLog, runCalls_runErrors]
  refine ⟨hrun, ?_⟩
  have hs2 : setText host t (executeCode host s) = Except.ok
      { executeCode host s with
        tsCode := t
        storage := st
        typeErrors := ((dsEdit.filter isRelevantError).map toDiagnostic) } := by
    simp [setText, contentChanged, hset, checkTypeErrors, hchkEdit]
  exact ⟨_, hs2, rfl, rfl⟩

/-- A diagnostic for `let a: number = "x";` (an assignability error the
filter keeps). -/
def assignDiag : RawDiagnostic :=
  { messageText := "Type '\"x\"' is not assignable to type 'number'."
    pos := some (0, 4, 4)
    length := some 1
    code := 2322 }

/-- A host whose checker reports `assignDiag` for the text
`let a: number = "x";` and nothing for any other text. -/
def snapshotHost : Host :=
  { check := fun code => if code = "let a: number = \"x\";" then .ok [assignDiag] else .ok []
    transpile := fun _ => .ok "var a = \"x\";"
    exec := fun _ => { calls := [], thrown := none }
    setItem := fun k v st => .ok (storeWrite k v st)
    now := "12:00:00 PM" }

/-- The state holding the erroneous text before the Run. -/
def snapshotState : State := { pristine with tsCode := "let a: number = \"x\";" }

/-- C6 witness for `runErrors_snapshot_isolation`: run on the erroneous text,
then edit to a clean text; the Run's `runErrors` still holds the snapshot
while `typeErrors` is empty again. -/
theorem runErrors_snapshot_isolation_witness :
    snapshotHost.check snapshotState.tsCode = Except.ok [assignDiag] ∧
    snapshotHost.check "let a: number = 1;" = Except.ok [] ∧
    (executeCode snapshotHost snapshotState).runErrors =
      ([assignDiag].filter isRelevantError).map toDiagnostic ∧
    (∃ s2, setText snapshotHost "let a: number = 1;" (executeCode snapshotHost snapshotState) =
        Except.ok s2 ∧
      s2.runErrors = (executeCode snapshotHost snapshotState).runErrors ∧
      s2.typeErrors = (([] : List RawDiagnostic).filter isRelevantError).map toDiagnostic) := by
  have h := runErrors_snapshot_isolation snapshotHost snapshotState "let a: number = 1;"
    [assignDiag] []
    (storeWrite "tsPlaygroundCode" "let a: number = 1;"
      (executeCode snapshotHost snapshotState).storage)
    rfl rfl rfl
  exact ⟨rfl, rfl, h.1, h.2⟩

/-! ### C4 -/

/-- An `MEHost` on which `ts.transpileModule` reports an error-category
(syntactic) diagnostic, as for the input `let x = ;`. -/
def syntaxErrHost : MEHost :=
  { transpileModule := fun _ =>
      .ok { outputText := "var x = ;"
            diagnostics := [{ isErrorCategory := true
                              message := "Expression expected."
                              pos := some (0, 8) }] }
    exec := fun _ => { calls := [{ kind := .log, args := [.str "ran"] }], thrown := none } }

/-- The `MonacoEditor.vue` state after mount. -/
def meInit : MEState :=
  { output := "// Editor ready. Click \"Run\" to execute code."
    errors := []
    activeTab := "output"
    consoleIsCustom := false }

/-- C4 counterexample: the claim says a Run executes the transpiled output
even when the diagnostics list is non-empty.  In `transpileAndRunTS`
(`MonacoEditor.vue`), a Run on `let x = ;` produces a non-empty error list,
yet execution is skipped: the output stays at the `// Starting execution...`
banner and contains nothing from the program (whose execution would have
logged `ran`). -/
theorem nonempty_diagnostics_skip_execution_cex :
    (transpileAndRunTS syntaxErrHost "let x = ;" meInit).errors =
      [{ lineNumber := 1, column := 9, message := "Expression expected." }] ∧
    (transpileAndRunTS syntaxErrHost "let x = ;" meInit).output =
      "// Starting execution...\n" ∧
    strContains (transpileAndRunTS syntaxErrHost "let x = ;" meInit).output "ran" = false := by
  refine ⟨rfl, rfl, by decide⟩

/-- C4 (amended): in the playground runner (`executeCode`) a non-empty
diagnostics list never blocks or skips execution — the Run transpiles and
executes, capturing the execution's console output, even when the Run-time
snapshot `runErrors` is non-empty; in the `MonacoEditor.vue` runner
(`transpileAndRunTS`), by contrast, error-category transpile diagnostics
cause execution to be skipped and the errors tab to be shown instead. -/
theorem run_with_errors_decoupling :
    (∀ (host : Host) (s : State) (ds : List RawDiagnostic) (js : String),
      host.check s.tsCode = Except.ok ds →
      host.transpile s.tsCode = Except.ok js →
      (host.exec js).thrown = none →
      ds.filter isRelevantError ≠ [] →
        (executeCode host s).runErrors = ((ds.filter isRelevantError).map toDiagnostic) ∧
        (executeCode host s).logs =
          entriesFor host (interceptConsole s.console) (host.exec js).calls) ∧
    (∀ (h : MEHost) (code : String) (st : MEState),
      (safeTranspileTS h code).diagnostics.any (fun d => d.isErrorCategory) = true →
        transpileAndRunTS h code st =
          { output := "// Starting execution...\n"
            errors := (((safeTranspileTS h code).diagnostics.filter
              (fun d => d.isErrorCategory)).map toMEError)
            activeTab := "errors"
            consoleIsCustom := st.consoleIsCustom }) := by
  constructor
  · intro host s ds js hchk htp hnothrow hne
    constructor
    · unfold executeCode executeCodeAux
      simp [checkTypeErrors, clearLogs, hchk, htp, hnothrow, runCalls_runErrors]
    · unfold executeCode executeCodeAux
      simp [checkTypeErrors, clearLogs, hchk, htp, hnothrow, runCalls_logs, runCalls_console]
  · intro h code st hany
    simp [transpileAndRunTS, hany]

/-- C4 witness for `run_with_errors_decoupling`: a Run over
`let a: number = "x";` carries a non-empty `runErrors` snapshot yet still
executes, and the `MonacoEditor.vue` Run over `let x = ;` takes the
skip-execution branch. -/
theorem run_with_errors_decoupling_witness :
    ([assignDiag].filter isRelevantError ≠ []) ∧
    ((executeCode snapshotHost snapshotState).runErrors =
      (([assignDiag].filter isRelevantError).map toDiagnostic) ∧
     (executeCode snapshotHost snapshotState).logs =
       entriesFor snapshotHost (interceptConsole snapshotState.console)
         ((snapshotHost.exec "var a = \"x\";").calls)) ∧
    transpileAndRunTS syntaxErrHost "let x = ;" meInit =
      { output := "// Starting execution...\n"
        errors := (((safeTranspileTS syntaxErrHost "let x = ;").diagnostics.filter
          (fun d => d.isErrorCategory)).map toMEError)
        activeTab := "errors"
        consoleIsCustom := meInit.consoleIsCustom } := by
  have h := run_with_errors_decoupling
  exact ⟨by decide,
    h.1 snapshotHost snapshotState [assignDiag] "var a = \"x\";" rfl rfl rfl (by decide),
    h.2 syntaxErrHost "let x = ;" meInit rfl⟩

/-! ### C8 -/

/-- C8: `resetCode` is idempotent: given a well-behaved store and a checker
reporting no relevant diagnostics for the default program, one reset yields a
state with the default text, empty logs and empty visible error lists, and a
second reset reproduces exactly the same state. -/
theorem resetCode_idempotent
    (host : Host) (s : State) (ds : List RawDiagnostic)
    (hset : ∀ k v st, host.setItem k v st = Except.ok (storeWrite k v st))
    (hchk : host.check defaultCode = Except.ok ds)
    (hrel : ds.filter isRelevantError = []) :
    ∃ s1, resetCode host s = Except.ok s1 ∧ resetCode host s1 = Except.ok s1 ∧
      s1.tsCode = defaultCode ∧ s1.logs = [] ∧ s1.typeErrors = [] ∧ s1.runErrors = [] := by
  refine ⟨{ tsCode := defaultCode
            logs := []
            typeErrors := []
            runErrors := []
            console := s.console
            storage := storeWrite "tsPlaygroundCode" defaultCode s.storage },
    ?_, ?_, rfl, rfl, rfl, rfl⟩
  · simp [resetCode, setText, contentChanged, hset, checkTypeErrors, hchk, hrel, clearAll,
      clearErrors, clearLogs, storeWrite_idem]
  · simp [resetCode, setText, contentChanged, hset, checkTypeErrors, hchk, hrel, clearAll,
      clearErrors, clearLogs, storeWrite_idem]

/-- A host whose checker reports nothing (in particular for `defaultCode`). -/
def cleanHost : Host :=
  { check := fun _ => .ok []
    transpile := fun _ => .ok ""
    exec := fun _ => { calls := [], thrown := none }
    setItem := fun k v st => .ok (storeWrite k v st)
    now := "12:00:00 PM" }

/-- C8 witness for `resetCode_idempotent`. -/
theorem resetCode_idempotent_witness :
    cleanHost.check defaultCode = Except.ok [] ∧
    ([] : List RawDiagnostic).filter isRelevantError = [] ∧
    (∃ s1, resetCode cleanHost pristine = Except.ok s1 ∧
      resetCode cleanHost s1 = Except.ok s1 ∧
      s1.tsCode = defaultCode ∧ s1.logs = [] ∧ s1.typeErrors = [] ∧ s1.runErrors = []) :=
  ⟨rfl, rfl, resetCode_idempotent cleanHost pristine [] (fun _ _ _ => rfl) rfl rfl⟩

/-! ### C10 -/

/-- C10: `executeCode` substitutes only `console.log` / `console.error` /
`console.warn` (`interceptConsole` bumps exactly those three bindings and
`console.info` always passes through zero interceptors), so a program that
calls `console.info` during a Run produces no log entry of any kind: a Run
whose program only calls `console.info` captures an empty log list, and in
general an info call contributes no entry. -/
theorem console_info_not_captured
    (host : Host) (s : State) (ds : List RawDiagnostic) (js : String) (args : List JsValue)
    (hchk : host.check s.tsCode = Except.ok ds)
    (htp : host.transpile s.tsCode = Except.ok js)
    (hexec : host.exec js = { calls := [{ kind := .info, args := args }], thrown := none }) :
    (executeCode host s).logs = [] ∧
    (∀ (c : ConsoleGlobals) (rest : List ConsoleCall) (args2 : List JsValue),
      entriesFor host c ({ kind := .info, args := args2 } :: rest) = entriesFor host c rest) ∧
    (∀ c : ConsoleGlobals, interceptDepth (interceptConsole c) ConsoleKind.info = 0) := by
  refine ⟨?_, fun c rest args2 => rfl, fun c => rfl⟩
  unfold executeCode executeCodeAux
  simp [checkTypeErrors, clearLogs, hchk, htp, hexec, runCalls, dispatchCall, interceptDepth]

/-- A host on which the executed code only calls `console.info`. -/
def infoHost : Host :=
  { check := fun _ => .ok []
    transpile := fun _ => .ok "console.info(\"note\");"
    exec := fun _ => { calls := [{ kind := .info, args := [.str "note"] }], thrown := none }
    setItem := fun k v st => .ok (storeWrite k v st)
    now := "12:00:00 PM" }

/-- C10 witness for `console_info_not_captured`. -/
theorem console_info_not_captured_witness :
    infoHost.exec "console.info(\"note\");" =
      { calls := [{ kind := ConsoleKind.info, args := [JsValue.str "note"] }],
        thrown := none } ∧
    (executeCode infoHost pristine).logs = [] := by
  have h := console_info_not_captured infoHost pristine [] "console.info(\"note\");"
    [JsValue.str "note"] rfl rfl rfl
  exact ⟨rfl, h.1⟩

end Playground
